import Mathlib

/-!
Shallow embedding of the core of the `ai-context-firewall` repository
(an Ollama-compatible proxy that scores each request with a secondary
classifier model and forwards or blocks it), together with theorems
settling the frozen specification claims.

The embedding follows the Go source: the state store (`store.go`),
the web configuration handlers (`web.go`), the classifier client
(`inspector.go`, the single-tier version present under `src/`), and
the proxy dispatcher (`proxy.go`).  Network transport, JSON
(un)marshalling of external payloads and wall-clock sampling are
abstracted as explicit inputs of the embedded functions; everything
downstream of them is translated statement by statement.

The repository also contains a more complete classifier-client
version (three-tier reply parsing, configurable cutoffs, token-usage
capture) that the proxy dispatcher under `src/` compiles against
(it reads `result.PromptTokens` / `result.EvalTokens`, fields the
single-tier version's struct does not have), but whose own source is
not under `src/`.  The definitions for that missing part are marked
`Modelled from the spec:` below and follow the specification's words.
-/

namespace Firewall

/-- Configuration record, from `store.go` (`type Config struct`).
`threshold` is a Go `int`, embedded as `Int`. -/
structure Config where
  backendURL : String
  inspectorURL : String
  inspectorModel : String
  threshold : Int
  activePrompt : String
  customPrompt : String
deriving DecidableEq

/-- Audit log entry.  Fields are those of `type InspectionLog struct` in
`store.go` together with the fields the proxy dispatcher under `src/`
populates (`InspectorModel`, `BackendModel`, `FromTool` and the four
token counters), which belong to the complete version of the struct.
`timestamp` stands for the `time.Time` stamp assigned by `AddLog`. -/
structure InspectionLog where
  id : Nat
  timestamp : Nat
  content : String
  riskLevel : String
  score : Int
  explanation : String
  action : String
  inspectorModel : String
  backendModel : String
  fromTool : Bool
  inspectPromptTokens : Int
  inspectEvalTokens : Int
  backendPromptTokens : Int
  backendEvalTokens : Int
  inspectTimeMs : Int
  backendTimeMs : Int
  totalTimeMs : Int
deriving DecidableEq

/-- Classifier verdict, from `inspector.go` (`type InspectionResult struct`)
in the single-tier version present under `src/`: `risk_level`, `score`,
`explanation`. -/
structure InspectionResult where
  riskLevel : String
  score : Int
  explanation : String
deriving DecidableEq

/-- Classifier verdict of the complete classifier-client version: the
three fields above plus the token-usage counters that the proxy
dispatcher under `src/` reads (`result.PromptTokens`, `result.EvalTokens`). -/
structure InspectionResultFull where
  riskLevel : String
  score : Int
  explanation : String
  promptTokens : Int
  evalTokens : Int
deriving DecidableEq

/-- `const maxLogs = 200` from `store.go`. -/
def maxLogs : Nat := 200

/-- The state store, from `store.go` (`type Store struct`): the audit log
slice, the next log id, and the configuration.  The mutex and the config
file path are concurrency/IO apparatus with no bearing on the claims. -/
structure Store where
  logs : List InspectionLog
  nextID : Nat
  config : Config
deriving DecidableEq

/-- Default configuration built by `NewStore` when no config file exists. -/
def defaultConfig : Config :=
  { backendURL := "http://localhost:11434"
    inspectorURL := "http://localhost:11434"
    inspectorModel := "llama3.2:3b"
    threshold := 70
    activePrompt := "standard"
    customPrompt := "" }

/-- Store state produced by `NewStore` when the config file is absent:
empty log, `nextID = 1`, default configuration. -/
def initialStore : Store :=
  { logs := [], nextID := 1, config := defaultConfig }

/-- `Store.GetConfig`: returns the configuration (Go returns a copy by
value; value semantics is inherent here). -/
def Store.getConfig (s : Store) : Config := s.config

/-- `Store.SetConfig`: replaces the in-memory configuration with `cfg`
as given (no validation or clamping happens here).  The write of the
backing JSON file is persistence IO outside the claims. -/
def Store.setConfig (s : Store) (cfg : Config) : Store :=
  { s with config := cfg }

/-- `Store.AddLog`: assigns `log.ID = s.nextID`, increments `nextID`,
stamps the timestamp, appends, and when the slice exceeds `maxLogs`
keeps only its last `maxLogs` elements
(`s.logs = s.logs[len(s.logs)-maxLogs:]`). -/
def Store.addLog (s : Store) (e : InspectionLog) (now : Nat) : Store :=
  let e' := { e with id := s.nextID, timestamp := now }
  let l := s.logs ++ [e']
  { s with
    nextID := s.nextID + 1
    logs := if l.length > maxLogs then l.drop (l.length - maxLogs) else l }

/-- `Store.GetLogs`: the Go loop writes `result[len(s.logs)-1-i] = l`,
i.e. it returns a fresh copy of the log in reverse (newest-first) order. -/
def Store.getLogs (s : Store) : List InspectionLog := s.logs.reverse

/-- Helper embedding the deletion loop of `Store.DeleteLog`: remove the
first element whose `ID` matches, or report that none matches. -/
def deleteFirst (id : Nat) : List InspectionLog → Option (List InspectionLog)
  | [] => none
  | l :: ls => if l.id = id then some ls else (deleteFirst id ls).map (l :: ·)

/-- `Store.DeleteLog`: removes the first entry whose `ID` equals `id` and
returns `true`; returns `false` leaving the log unchanged when no entry
matches. -/
def Store.deleteLog (s : Store) (id : Nat) : Store × Bool :=
  match deleteFirst id s.logs with
  | some ls => ({ s with logs := ls }, true)
  | none => (s, false)

/-- `Store.ClearLogs`: empties the log (`s.logs = nil`). -/
def Store.clearLogs (s : Store) : Store := { s with logs := [] }

/-- Form-based configuration handler `handleConfig` in `web.go` (POST
branch): parses the threshold form value (`thresholdForm` stands for what
`strconv.Atoi` returned, `0` on parse failure with the error ignored),
clamps it into `[0,100]` with two sequential ifs, builds the `Config`
from the form values and stores it via `SetConfig`. -/
def handleConfigPost (s : Store) (backendURL inspectorURL inspectorModel : String)
    (thresholdForm : Int) (activePrompt customPrompt : String) : Store :=
  let threshold := if thresholdForm < 0 then 0 else thresholdForm
  let threshold := if threshold > 100 then 100 else threshold
  s.setConfig
    { backendURL := backendURL
      inspectorURL := inspectorURL
      inspectorModel := inspectorModel
      threshold := threshold
      activePrompt := activePrompt
      customPrompt := customPrompt }

/-- JSON API configuration handler `handleAPIConfig` in `web.go` (POST
branch): decodes the request body into a `Config` (`cfg` stands for the
successfully decoded value) and stores it via `SetConfig` with no
validation or clamping of any field. -/
def handleAPIConfigPost (s : Store) (cfg : Config) : Store :=
  s.setConfig cfg

/-- Embedding of `strings.ToLower`: lowercase character by character. -/
def toLowerStr (s : String) : String := String.mk (s.data.map Char.toLower)

/-- Post-decode normalisation inside `Inspector.Inspect` of the
single-tier `inspector.go` under `src/`: lowercase the risk level,
replace any label outside {safe, suspicious, malicious} by
"suspicious", then clamp the score into `[0,100]` with two sequential
ifs. -/
def normalizeResult (r : InspectionResult) : InspectionResult :=
  let rl := toLowerStr r.riskLevel
  let rl := if rl ≠ "safe" ∧ rl ≠ "suspicious" ∧ rl ≠ "malicious" then "suspicious" else rl
  let sc := if r.score < 0 then 0 else r.score
  let sc := if sc > 100 then 100 else sc
  { r with riskLevel := rl, score := sc }

/-- `Inspector.Inspect` of the single-tier version under `src/`.  The
HTTP call, the envelope decode and `json.Unmarshal` of the reply
content are abstracted as the input: `decoded` is `some raw` when the
reply content unmarshalled into `raw`, and `none` on any of the failure
modes (transport, status, envelope decode, content unmarshal), in which
case `Inspect` returns an error, embedded as `none`. -/
def Inspect (decoded : Option InspectionResult) : Option InspectionResult :=
  decoded.map normalizeResult

/-- Modelled from the spec: the bounded excerpt of the raw classifier
reply included in the classification-parse error (missing from `src/`;
part of the complete classifier-client version).  The bound is fixed at
200 characters. -/
def boundedExcerpt (s : String) : String := String.mk (s.data.take 200)

/-- Modelled from the spec: tier (b) of the three-tier parse (missing
from `src/`) — the substring between the first opening brace and the
last closing brace of the reply, inclusive, or `none` when the braces
are absent or in the wrong order. -/
def betweenBraces (s : String) : Option String :=
  match s.data.findIdx? (· = '\x7b') with
  | none => none
  | some i =>
    match s.data.reverse.findIdx? (· = '\x7d') with
    | none => none
    | some j =>
      let jlast := s.data.length - 1 - j
      if i ≤ jlast then some (String.mk ((s.data.take (jlast + 1)).drop i)) else none

/-- Modelled from the spec: the three-tier parse of the classifier reply
of the complete classifier-client version (missing from `src/`).
`decode` stands for the structured (JSON) decode of a candidate string
into a result record; `findRisk`, `findScore` and `findExpl` stand for
the tier-(c) field-level pattern extractors for `risk_level` (word
token), `score` (integer, tolerating a quoted numeric string) and
`explanation` (bounded-length quoted string).  Tier (a) decodes the
whole reply; tier (b) decodes the substring between the first opening
and last closing brace; tier (c) succeeds if at least a risk level is
recovered; each tier runs only on failure of the previous one, and when
all three fail the result is a classification-parse error carrying a
bounded excerpt of the raw reply. -/
def parseThreeTier (decode : String → Option InspectionResult)
    (findRisk : String → Option String) (findScore : String → Option Int)
    (findExpl : String → Option String) (reply : String) :
    Except String InspectionResult :=
  match decode reply with
  | some r => .ok r
  | none =>
    match (betweenBraces reply).bind decode with
    | some r => .ok r
    | none =>
      match findRisk reply with
      | some rl =>
        .ok { riskLevel := rl, score := (findScore reply).getD 0
              explanation := (findExpl reply).getD "" }
      | none => .error ("parse inspection result, raw excerpt: " ++ boundedExcerpt reply)

/-- Modelled from the spec: score clamping into `[0,100]` (step 4 of the
complete classifier-client version, missing from `src/`). -/
def clampScore (s : Int) : Int := if s < 0 then 0 else if s > 100 then 100 else s

/-- Modelled from the spec: deterministic re-derivation of the risk
level from the score against the two configured cutoffs (step 5 of the
complete classifier-client version, missing from `src/`). -/
def deriveRiskLevel (maliciousAt suspiciousAt score : Int) : String :=
  if score ≥ maliciousAt then "malicious"
  else if score ≥ suspiciousAt then "suspicious"
  else "safe"

/-- Severity order on risk labels used to state monotonicity:
safe < suspicious < malicious. -/
def severityRank (s : String) : Nat :=
  if s = "malicious" then 2 else if s = "suspicious" then 1 else 0

/-- Modelled from the spec: steps 4–5 of the complete classifier-client
version (missing from `src/`) applied to the parsed reply — clamp the
recovered score and re-derive the final risk level from the clamped
score against the cutoffs, discarding the model's own label. -/
def inspectComplete (maliciousAt suspiciousAt : Int)
    (parsed : Except String InspectionResult) : Except String InspectionResult :=
  match parsed with
  | .error e => .error e
  | .ok r =>
    .ok { riskLevel := deriveRiskLevel maliciousAt suspiciousAt (clampScore r.score)
          score := clampScore r.score
          explanation := r.explanation }

/-- `truncate` from `proxy.go`: replace newlines by spaces, then cap the
length at `maxLen` characters appending an ellipsis.  Go measures bytes;
for the ASCII metadata involved this coincides with characters. -/
def truncate (s : String) (maxLen : Nat) : String :=
  let t := String.mk (s.data.map (fun c => if c = '\n' then ' ' else c))
  if t.length > maxLen then String.mk (t.data.take maxLen) ++ "..." else t

/-- The human-readable text of a synthesized blocked response, from
`respondBlocked` in `proxy.go`. -/
def blockedMessage (score : Int) (riskLevel explanation : String) : String :=
  "[BLOCKED by AI Context Firewall] Risk score: " ++ toString score ++ "/100 ("
    ++ riskLevel ++ "). " ++ explanation

/-- The synthesized blocked response envelope, from `respondBlocked` in
`proxy.go`: the chat shape carries the message under `message.content`,
the completion shape under `response`. -/
inductive BlockedResponse where
  | chat (model createdAt role content : String) (done : Bool) (doneReason : String)
  | completion (model createdAt response : String) (done : Bool) (doneReason : String)
deriving DecidableEq

/-- `respondBlocked` from `proxy.go`: chooses the envelope shape by the
request path (`/api/chat` versus everything else, i.e. `/api/generate`)
and embeds the inspection message as ordinary model output with
`done = true` and `done_reason = "blocked"`. -/
def respondBlocked (path : String) (result : InspectionResultFull)
    (model : String) : BlockedResponse :=
  let msg := blockedMessage result.score result.riskLevel result.explanation
  if path = "/api/chat" then
    .chat model "0001-01-01T00:00:00Z" "assistant" msg true "blocked"
  else
    .completion model "0001-01-01T00:00:00Z" msg true "blocked"

/-- Outcome of one `inspectAndForward` run, as seen by the caller. -/
inductive ProxyOutcome where
  | errorForwarded
  | blockedResp (resp : BlockedResponse)
  | forwardedResp
deriving DecidableEq

/-- Result of one embedded `inspectAndForward` run: the store after the
audit append, the outcome, the body forwarded to the backend (`none`
when the backend was never contacted), and the final value of the local
`logEntry` variable (which on the error path diverges from the stored
entry). -/
structure ProxyResult where
  store : Store
  outcome : ProxyOutcome
  forwardedBody : Option String
  localEntry : InspectionLog
deriving DecidableEq

/-- A log entry with every field at its Go zero value, standing for the
omitted fields of the `InspectionLog{...}` literals in `proxy.go`. -/
def emptyLog : InspectionLog :=
  { id := 0, timestamp := 0, content := "", riskLevel := "", score := 0
    explanation := "", action := "", inspectorModel := "", backendModel := ""
    fromTool := false, inspectPromptTokens := 0, inspectEvalTokens := 0
    backendPromptTokens := 0, backendEvalTokens := 0, inspectTimeMs := 0
    backendTimeMs := 0, totalTimeMs := 0 }

/-- `inspectAndForward` from `proxy.go`.  The clock samples are inputs:
`inspectMs` is `time.Since(inspectStart)` after the classifier call,
`errTotalMs` is `time.Since(totalStart)` taken on the error path after
forwarding, `blockedTotalMs` the one taken on the blocked path before
the append, `backendMs` and `fwdTotalMs` the backend and total
durations on the forwarded path; `backendPrompt`/`backendEval` are the
token counters `p.forward` recovered from the backend stream.
`inspection` is the classifier call's outcome (`.error err` embeds a
failed `Inspect` with error text `err`).  On the error path the entry
is appended (by value) with `TotalTimeMs` still zero and only the local
variable receives the final total afterwards, exactly as in the Go. -/
def inspectAndForward (cfg : Config) (path body content modelName : String)
    (fromTool : Bool) (inspection : Except String InspectionResultFull)
    (inspectMs errTotalMs blockedTotalMs backendMs fwdTotalMs : Int)
    (backendPrompt backendEval : Int) (s : Store) (now : Nat) : ProxyResult :=
  match inspection with
  | .error err =>
    let logEntry :=
      { emptyLog with
        content := truncate content 100
        riskLevel := "unknown"
        score := -1
        explanation := "inspection failed: " ++ err
        action := "forwarded (inspection error)"
        inspectorModel := cfg.inspectorModel
        backendModel := modelName
        fromTool := fromTool
        inspectTimeMs := inspectMs }
    let s' := s.addLog logEntry now
    let logEntry := { logEntry with totalTimeMs := errTotalMs }
    { store := s', outcome := .errorForwarded, forwardedBody := some body
      localEntry := logEntry }
  | .ok result =>
    let action := if result.score ≥ cfg.threshold then "blocked" else "forwarded"
    let logEntry :=
      { emptyLog with
        content := truncate content 100
        riskLevel := result.riskLevel
        score := result.score
        explanation := result.explanation
        action := action
        inspectorModel := cfg.inspectorModel
        backendModel := modelName
        fromTool := fromTool
        inspectPromptTokens := result.promptTokens
        inspectEvalTokens := result.evalTokens
        inspectTimeMs := inspectMs }
    if action = "blocked" then
      let logEntry := { logEntry with totalTimeMs := blockedTotalMs }
      let s' := s.addLog logEntry now
      { store := s', outcome := .blockedResp (respondBlocked path result modelName)
        forwardedBody := none, localEntry := logEntry }
    else
      let logEntry :=
        { logEntry with
          backendPromptTokens := backendPrompt
          backendEvalTokens := backendEval
          backendTimeMs := backendMs
          totalTimeMs := fwdTotalMs }
      let s' := s.addLog logEntry now
      { store := s', outcome := .forwardedResp, forwardedBody := some body
        localEntry := logEntry }

/-- The last `n` elements of a list (the whole list when it is shorter). -/
def lastN {α : Type} (n : Nat) (l : List α) : List α := l.drop (l.length - n)

/-- The log entries as `AddLog` stamps them: ids assigned consecutively
from `startID`, timestamps set to `now`. -/
def stampFrom (startID now : Nat) : List InspectionLog → List InspectionLog
  | [] => []
  | e :: es => { e with id := startID, timestamp := now } :: stampFrom (startID + 1) now es

/-- A sequence of `AddLog` insertions. -/
def addAll (s : Store) (es : List InspectionLog) (now : Nat) : Store :=
  es.foldl (fun st e => st.addLog e now) s

theorem lastN_length {α : Type} (n : Nat) (l : List α) :
    (lastN n l).length = min n l.length := by
  simp only [lastN, List.length_drop]
  omega

theorem lastN_of_le {α : Type} {n : Nat} {l : List α} (h : l.length ≤ n) :
    lastN n l = l := by
  simp only [lastN]
  have : l.length - n = 0 := by omega
  simp [this]

theorem lastN_append_of_le {α : Type} (n : Nat) (u w : List α) (h : n ≤ w.length) :
    lastN n (u ++ w) = lastN n w := by
  simp only [lastN, List.length_append]
  have heq : u.length + w.length - n = u.length + (w.length - n) := by omega
  rw [heq, List.drop_append]

theorem lastN_lastN_append {α : Type} (n : Nat) (l m : List α) :
    lastN n (lastN n l ++ m) = lastN n (l ++ m) := by
  by_cases h : l.length ≤ n
  · rw [lastN_of_le h]
  · have hk : l.take (l.length - n) ++ lastN n l = l := List.take_append_drop _ l
    have hlen : (lastN n l).length = n := by rw [lastN_length]; omega
    have h2 : lastN n (l.take (l.length - n) ++ (lastN n l ++ m)) = lastN n (lastN n l ++ m) :=
      lastN_append_of_le n _ _ (by rw [List.length_append, hlen]; omega)
    calc lastN n (lastN n l ++ m)
        = lastN n (l.take (l.length - n) ++ (lastN n l ++ m)) := h2.symm
      _ = lastN n (l ++ m) := by rw [← List.append_assoc, hk]

theorem addLog_logs (s : Store) (e : InspectionLog) (now : Nat) :
    (s.addLog e now).logs
      = lastN maxLogs (s.logs ++ [{ e with id := s.nextID, timestamp := now }]) := by
  simp only [Store.addLog, lastN]
  split
  · rfl
  · next h =>
    have : (s.logs ++ [{ e with id := s.nextID, timestamp := now }]).length - maxLogs = 0 := by
      omega
    rw [this, List.drop_zero]

theorem addLog_nextID (s : Store) (e : InspectionLog) (now : Nat) :
    (s.addLog e now).nextID = s.nextID + 1 := rfl

theorem addLog_length_le (s : Store) (e : InspectionLog) (now : Nat) :
    (s.addLog e now).logs.length ≤ maxLogs := by
  rw [addLog_logs, lastN_length]
  omega

theorem stampFrom_length (startID now : Nat) (es : List InspectionLog) :
    (stampFrom startID now es).length = es.length := by
  induction es generalizing startID with
  | nil => rfl
  | cons e es ih => simp [stampFrom, ih]

theorem addAll_logs (es : List InspectionLog) (s : Store) (now : Nat)
    (h : s.logs.length ≤ maxLogs) :
    (addAll s es now).logs = lastN maxLogs (s.logs ++ stampFrom s.nextID now es) := by
  induction es generalizing s with
  | nil =>
    simp only [addAll, List.foldl_nil, stampFrom, List.append_nil]
    exact (lastN_of_le h).symm
  | cons e es ih =>
    have hstep : addAll s (e :: es) now = addAll (s.addLog e now) es now := rfl
    rw [hstep, ih (s.addLog e now) (addLog_length_le s e now)]
    rw [addLog_logs, addLog_nextID]
    rw [lastN_lastN_append]
    simp [stampFrom, List.append_assoc]

/-- Membership in the post-insertion log: every entry either predates
the insertion or is the freshly stamped one. -/
theorem addLog_mem (s : Store) (e : InspectionLog) (now : Nat) {x : InspectionLog}
    (hx : x ∈ (s.addLog e now).logs) :
    x ∈ s.logs ∨ x = { e with id := s.nextID, timestamp := now } := by
  rw [addLog_logs] at hx
  have hx' : x ∈ s.logs ++ [{ e with id := s.nextID, timestamp := now }] :=
    List.drop_subset _ _ hx
  rcases List.mem_append.mp hx' with h | h
  · exact Or.inl h
  · exact Or.inr (List.mem_singleton.mp h)

theorem deleteFirst_eq_none_iff (id : Nat) (l : List InspectionLog) :
    deleteFirst id l = none ↔ ∀ x ∈ l, x.id ≠ id := by
  induction l with
  | nil => simp [deleteFirst]
  | cons a l ih =>
    by_cases h : a.id = id
    · simp [deleteFirst, h]
    · simp [deleteFirst, h, Option.map_eq_none', ih]

theorem deleteFirst_decomp (id : Nat) (l : List InspectionLog)
    (hx : ∃ x ∈ l, x.id = id) :
    ∃ u e v, l = u ++ e :: v ∧ e.id = id ∧ (∀ x ∈ u, x.id ≠ id)
      ∧ deleteFirst id l = some (u ++ v) := by
  induction l with
  | nil => simp at hx
  | cons a l ih =>
    by_cases h : a.id = id
    · exact ⟨[], a, l, by simp, h, by simp, by simp [deleteFirst, h]⟩
    · obtain ⟨x, hxl, hxid⟩ := hx
      have hx' : ∃ x ∈ l, x.id = id := by
        rcases List.mem_cons.mp hxl with rfl | hm
        · exact absurd hxid h
        · exact ⟨x, hm, hxid⟩
      obtain ⟨u, e, v, hl, he, hu, hdel⟩ := ih hx'
      refine ⟨a :: u, e, v, by simp [hl], he, ?_, by simp [deleteFirst, h, hdel]⟩
      intro y hy
      rcases List.mem_cons.mp hy with rfl | hm
      · exact h
      · exact hu y hm

/-- Store well-formedness: every log id is below `nextID` and the log
ids are pairwise distinct.  `AddLog` assigns `nextID` and increments
it, so every state the program reaches satisfies this. -/
def goodStore (s : Store) : Prop :=
  (∀ x ∈ s.logs, x.id < s.nextID) ∧ (s.logs.map InspectionLog.id).Nodup

theorem goodStore_initial : goodStore initialStore := by
  constructor <;> simp [initialStore]

theorem goodStore_addLog {s : Store} (h : goodStore s) (e : InspectionLog) (now : Nat) :
    goodStore (s.addLog e now) := by
  obtain ⟨hlt, hnd⟩ := h
  constructor
  · intro x hx
    rw [addLog_nextID]
    rcases addLog_mem s e now hx with hold | rfl
    · exact Nat.lt_succ_of_lt (hlt x hold)
    · exact Nat.lt_succ_self _
  · have hsub : (s.addLog e now).logs.Sublist
        (s.logs ++ [{ e with id := s.nextID, timestamp := now }]) := by
      rw [addLog_logs]
      exact List.drop_sublist _ _
    have hnd' : ((s.logs ++ [{ e with id := s.nextID, timestamp := now }]).map
        InspectionLog.id).Nodup := by
      rw [List.map_append]
      rw [List.nodup_append]
      refine ⟨hnd, by simp, ?_⟩
      intro a ha hb
      simp only [List.map_cons, List.map_nil, List.mem_singleton] at hb
      obtain ⟨x, hx, hxa⟩ := List.mem_map.mp ha
      have := hlt x hx
      omega
    exact (hsub.map InspectionLog.id).nodup hnd'

theorem goodStore_deleteLog {s : Store} (h : goodStore s) (id : Nat) :
    goodStore ((s.deleteLog id).1) := by
  obtain ⟨hlt, hnd⟩ := h
  unfold Store.deleteLog
  by_cases hex : ∃ x ∈ s.logs, x.id = id
  · obtain ⟨u, e, v, hl, _, _, hdel⟩ := deleteFirst_decomp id s.logs hex
    rw [hdel]
    constructor
    · intro x hx
      refine hlt x ?_
      rw [hl]
      rcases List.mem_append.mp hx with h1 | h1
      · exact List.mem_append.mpr (Or.inl h1)
      · exact List.mem_append.mpr (Or.inr (List.mem_cons_of_mem e h1))
    · refine ((?_ : (u ++ v).Sublist s.logs).map InspectionLog.id).nodup hnd
      rw [hl]
      refine List.Sublist.append (List.Sublist.refl u) ?_
      exact List.sublist_cons_self e v
  · have hnone : deleteFirst id s.logs = none := by
      rw [deleteFirst_eq_none_iff]
      intro x hx
      exact fun hc => hex ⟨x, hx, hc⟩
    rw [hnone]
    exact ⟨hlt, hnd⟩

theorem goodStore_clearLogs {s : Store} (_ : goodStore s) : goodStore s.clearLogs := by
  constructor <;> simp [Store.clearLogs]

/-- Claim C6: starting from the empty store, any sequence of `AddLog`
insertions leaves at most 200 entries; exactly the `min N 200` most
recently inserted entries remain, in insertion order (oldest evicted
first), and `GetLogs` returns them newest-first (the reversal of the
internal order, as a fresh copy). -/
theorem auditLog_capacity_C6 (es : List InspectionLog) (now : Nat) :
    (addAll initialStore es now).logs.length = min es.length maxLogs
  ∧ (addAll initialStore es now).logs = lastN maxLogs (stampFrom 1 now es)
  ∧ (addAll initialStore es now).getLogs = (lastN maxLogs (stampFrom 1 now es)).reverse := by
  have hlogs : (addAll initialStore es now).logs = lastN maxLogs (stampFrom 1 now es) := by
    have := addAll_logs es initialStore now (by simp [initialStore, maxLogs])
    simpa [initialStore] using this
  refine ⟨?_, hlogs, ?_⟩
  · rw [hlogs, lastN_length, stampFrom_length]
    omega
  · rw [Store.getLogs, hlogs]

/-- Claim C8: `DeleteLog` of an id not present returns `false` and
leaves the store unchanged; on a store with pairwise-distinct log ids
(the invariant every reachable store satisfies, see `goodStore_addLog`),
`DeleteLog` of a present id returns `true`, removes exactly the one
entry carrying that id, and a second `DeleteLog` of the same id returns
`false`. -/
theorem deleteLog_semantics_C8 (s : Store) (id : Nat)
    (h : (s.logs.map InspectionLog.id).Nodup) :
    ((∀ x ∈ s.logs, x.id ≠ id) → s.deleteLog id = (s, false))
  ∧ ((∃ x ∈ s.logs, x.id = id) →
      (s.deleteLog id).2 = true
    ∧ (s.deleteLog id).1.logs.length + 1 = s.logs.length
    ∧ (∀ x, x ∈ (s.deleteLog id).1.logs ↔ (x ∈ s.logs ∧ x.id ≠ id))
    ∧ ((s.deleteLog id).1.deleteLog id).2 = false) := by
  constructor
  · intro habs
    have hnone : deleteFirst id s.logs = none := (deleteFirst_eq_none_iff id s.logs).mpr habs
    unfold Store.deleteLog
    rw [hnone]
  · intro hex
    obtain ⟨u, e, v, hl, he, hu, hdel⟩ := deleteFirst_decomp id s.logs hex
    have hres : s.deleteLog id = ({ s with logs := u ++ v }, true) := by
      unfold Store.deleteLog
      rw [hdel]
    have hndapp : id ∉ (u ++ v).map InspectionLog.id := by
      intro hc
      rw [hl, List.map_append, List.map_cons, List.nodup_append] at h
      obtain ⟨hndu, hndcons, hdisj⟩ := h
      rw [List.mem_map] at hc
      obtain ⟨x, hx, hxid⟩ := hc
      rcases List.mem_append.mp hx with h1 | h1
      · exact hdisj (List.mem_map.mpr ⟨x, h1, hxid⟩) (by rw [he]; exact List.mem_cons_self _ _)
      · have : x.id ∈ v.map InspectionLog.id := List.mem_map.mpr ⟨x, h1, rfl⟩
        rw [hxid, ← he] at this
        exact (List.nodup_cons.mp hndcons).1 this
    have hnotid : ∀ x ∈ u ++ v, x.id ≠ id := by
      intro x hx hc
      exact hndapp (List.mem_map.mpr ⟨x, hx, hc⟩)
    refine ⟨by rw [hres], ?_, ?_, ?_⟩
    · rw [hres, hl]
      simp
      omega
    · intro x
      rw [hres]
      constructor
      · intro hx
        refine ⟨?_, hnotid x hx⟩
        rw [hl]
        rcases List.mem_append.mp hx with h1 | h1
        · exact List.mem_append.mpr (Or.inl h1)
        · exact List.mem_append.mpr (Or.inr (List.mem_cons_of_mem e h1))
      · rintro ⟨hx, hxid⟩
        rw [hl] at hx
        rcases List.mem_append.mp hx with h1 | h1
        · exact List.mem_append.mpr (Or.inl h1)
        · rcases List.mem_cons.mp h1 with rfl | h2
          · exact absurd he hxid
          · exact List.mem_append.mpr (Or.inr h2)
    · have hnone : deleteFirst id (u ++ v) = none :=
        (deleteFirst_eq_none_iff id (u ++ v)).mpr hnotid
      rw [hres]
      unfold Store.deleteLog
      rw [hnone]

/-- A sample log entry used by concrete witnesses. -/
def sampleLog (i : Nat) : InspectionLog := { emptyLog with id := i }

/-- A sample store with two entries of ids 1 and 2, as left by two
`AddLog` calls on the initial store. -/
def sampleStore : Store :=
  { logs := [sampleLog 1, sampleLog 2], nextID := 3, config := defaultConfig }

/-- Witness for C8 at a concrete store: ids `[1, 2]` are distinct, entry
1 is present, deleting id 1 succeeds and deleting it again fails. -/
theorem deleteLog_semantics_C8_witness :
    (sampleStore.logs.map InspectionLog.id).Nodup
  ∧ (sampleStore.deleteLog 1).2 = true
  ∧ ((sampleStore.deleteLog 1).1.deleteLog 1).2 = false :=
  ⟨by decide,
   ((deleteLog_semantics_C8 sampleStore 1 (by decide)).2
      ⟨sampleLog 1, by decide, by decide⟩).1,
   ((deleteLog_semantics_C8 sampleStore 1 (by decide)).2
      ⟨sampleLog 1, by decide, by decide⟩).2.2.2⟩

/-- Claim C3 as stated is false on the code: the JSON configuration API
(`handleAPIConfig`, a configuration-writing operation) stores an
out-of-range threshold unclamped, and the block decision then uses it
as given — with threshold 150 even a score of 100 is forwarded. -/
theorem threshold_unclamped_C3_counterexample :
    (handleAPIConfigPost initialStore
      { backendURL := "", inspectorURL := "", inspectorModel := ""
        threshold := 150, activePrompt := "", customPrompt := "" }).config.threshold = 150
  ∧ ¬ (handleAPIConfigPost initialStore
      { backendURL := "", inspectorURL := "", inspectorModel := ""
        threshold := 150, activePrompt := "", customPrompt := "" }).config.threshold ≤ 100
  ∧ (inspectAndForward
      (handleAPIConfigPost initialStore
        { backendURL := "", inspectorURL := "", inspectorModel := ""
          threshold := 150, activePrompt := "", customPrompt := "" }).config
      "/api/chat" "b" "c" "m" false
      (.ok { riskLevel := "malicious", score := 100, explanation := "e"
             promptTokens := 0, evalTokens := 0 })
      0 0 0 0 0 0 0 initialStore 0).outcome = .forwardedResp := by
  refine ⟨rfl, by decide, ?_⟩
  rfl

/-- Claim C3, amended: only the form-based configuration handler clamps
the threshold into `[0,100]`; the JSON API configuration endpoint (and
`SetConfig` itself) stores the configuration exactly as given, so an
out-of-range threshold persists and is used unclamped by the block
decision. -/
theorem threshold_clamping_C3_amended (s : Store)
    (burl iurl imodel aprompt cprompt : String) (t : Int) (cfg : Config) :
    (0 ≤ (handleConfigPost s burl iurl imodel t aprompt cprompt).config.threshold
      ∧ (handleConfigPost s burl iurl imodel t aprompt cprompt).config.threshold ≤ 100)
  ∧ (handleAPIConfigPost s cfg).config = cfg := by
  refine ⟨?_, rfl⟩
  simp only [handleConfigPost, Store.setConfig]
  constructor <;> split <;> split <;> omega

/-- Claim C7: every successful `Inspect` call returns a score in
`[0,100]`; a decoded score below 0 comes back as 0 and one above 100 as
100, while an in-range score is returned unchanged. -/
theorem inspect_score_clamped_C7 (decoded : Option InspectionResult)
    (r : InspectionResult) (h : Inspect decoded = some r) :
    0 ≤ r.score ∧ r.score ≤ 100
  ∧ ∀ raw, decoded = some raw →
      (raw.score < 0 → r.score = 0)
    ∧ (raw.score > 100 → r.score = 100)
    ∧ (0 ≤ raw.score → raw.score ≤ 100 → r.score = raw.score) := by
  match decoded with
  | none => exact absurd h (by simp [Inspect])
  | some raw =>
    have hr : r = normalizeResult raw := by
      have := h
      simp only [Inspect, Option.map_some'] at this
      exact (Option.some.injEq _ _).mp this.symm
    subst hr
    simp only [normalizeResult]
    refine ⟨?_, ?_, ?_⟩
    · dsimp only
      split_ifs <;> omega
    · dsimp only
      split_ifs <;> omega
    · intro raw2 hraw2
      have : raw2 = raw := by
        exact (Option.some.injEq _ _).mp hraw2.symm
      subst this
      refine ⟨?_, ?_, ?_⟩ <;> intros <;> split_ifs <;> omega

/-- Witness for C7 at a concrete input: a decoded score of 150 is
returned clamped to 100, inside `[0,100]`. -/
theorem inspect_score_clamped_C7_witness :
    Inspect (some { riskLevel := "safe", score := 150, explanation := "e" })
      = some (normalizeResult { riskLevel := "safe", score := 150, explanation := "e" })
  ∧ 0 ≤ (normalizeResult { riskLevel := "safe", score := 150, explanation := "e" }).score
  ∧ (normalizeResult { riskLevel := "safe", score := 150, explanation := "e" }).score ≤ 100
  ∧ (normalizeResult { riskLevel := "safe", score := 150, explanation := "e" }).score = 100 :=
  ⟨rfl,
   (inspect_score_clamped_C7 (some { riskLevel := "safe", score := 150, explanation := "e" })
      (normalizeResult { riskLevel := "safe", score := 150, explanation := "e" }) rfl).1,
   (inspect_score_clamped_C7 (some { riskLevel := "safe", score := 150, explanation := "e" })
      (normalizeResult { riskLevel := "safe", score := 150, explanation := "e" }) rfl).2.1,
   ((inspect_score_clamped_C7 (some { riskLevel := "safe", score := 150, explanation := "e" })
      (normalizeResult { riskLevel := "safe", score := 150, explanation := "e" }) rfl).2.2
      { riskLevel := "safe", score := 150, explanation := "e" } rfl).2.1 (by decide)⟩

/-- Claim C9: every successful `Inspect` call returns a risk level in
{safe, suspicious, malicious}: the decoded label is lowercased, kept if
it falls in that set, and replaced by "suspicious" otherwise (an empty
or unrecognized label does not fail the call). -/
theorem inspect_risk_level_normalized_C9 (decoded : Option InspectionResult)
    (r : InspectionResult) (h : Inspect decoded = some r) :
    (r.riskLevel = "safe" ∨ r.riskLevel = "suspicious" ∨ r.riskLevel = "malicious")
  ∧ ∀ raw, decoded = some raw →
      ((toLowerStr raw.riskLevel = "safe" ∨ toLowerStr raw.riskLevel = "suspicious"
          ∨ toLowerStr raw.riskLevel = "malicious") → r.riskLevel = toLowerStr raw.riskLevel)
    ∧ (¬ (toLowerStr raw.riskLevel = "safe" ∨ toLowerStr raw.riskLevel = "suspicious"
          ∨ toLowerStr raw.riskLevel = "malicious") → r.riskLevel = "suspicious") := by
  match decoded with
  | none => exact absurd h (by simp [Inspect])
  | some raw =>
    have hr : r = normalizeResult raw := by
      have := h
      simp only [Inspect, Option.map_some'] at this
      exact (Option.some.injEq _ _).mp this.symm
    subst hr
    simp only [normalizeResult]
    constructor
    · dsimp only
      split
      · exact Or.inr (Or.inl rfl)
      · next hcond =>
        rcases not_and_or.mp hcond with h1 | h23
        · exact Or.inl (not_not.mp h1)
        · rcases not_and_or.mp h23 with h2 | h3
          · exact Or.inr (Or.inl (not_not.mp h2))
          · exact Or.inr (Or.inr (not_not.mp h3))
    · intro raw2 hraw2
      have : raw2 = raw := (Option.some.injEq _ _).mp hraw2.symm
      subst this
      constructor
      · intro hin
        split
        · next hcond =>
          rcases hin with h1 | h1 | h1 <;> simp [h1] at hcond
        · rfl
      · intro hout
        split
        · rfl
        · next hcond =>
          push_neg at hcond
          exact absurd (by tauto) hout

/-- Witness for C9 at a concrete input: the label "Totally Fine"
lowercases outside the recognized set and comes back as "suspicious". -/
theorem inspect_risk_level_normalized_C9_witness :
    Inspect (some { riskLevel := "Totally Fine", score := 5, explanation := "e" })
      = some (normalizeResult { riskLevel := "Totally Fine", score := 5, explanation := "e" })
  ∧ (normalizeResult { riskLevel := "Totally Fine", score := 5, explanation := "e" }).riskLevel
      = "suspicious" :=
  ⟨rfl,
   ((inspect_risk_level_normalized_C9
      (some { riskLevel := "Totally Fine", score := 5, explanation := "e" })
      (normalizeResult { riskLevel := "Totally Fine", score := 5, explanation := "e" }) rfl).2
      { riskLevel := "Totally Fine", score := 5, explanation := "e" } rfl).2 (by decide)⟩

/-- Claim C4: when classification fails, `inspectAndForward` appends an
audit entry whose verdict is "unknown", whose score is the sentinel -1,
whose explanation describes the failure, and whose action is the
distinguished forwarded-on-classification-error action (the literal
`"forwarded (inspection error)"` in the code), then forwards the
original request body unmodified to the backend; the outcome is never a
block. -/
theorem failOpen_on_classifier_error_C4 (cfg : Config)
    (path body content modelName : String) (fromTool : Bool) (err : String)
    (inspectMs errTotalMs blockedTotalMs backendMs fwdTotalMs : Int)
    (backendPrompt backendEval : Int) (s : Store) (now : Nat) :
    (inspectAndForward cfg path body content modelName fromTool (.error err)
        inspectMs errTotalMs blockedTotalMs backendMs fwdTotalMs
        backendPrompt backendEval s now).forwardedBody = some body
  ∧ (inspectAndForward cfg path body content modelName fromTool (.error err)
        inspectMs errTotalMs blockedTotalMs backendMs fwdTotalMs
        backendPrompt backendEval s now).outcome = .errorForwarded
  ∧ ∃ e, (inspectAndForward cfg path body content modelName fromTool (.error err)
        inspectMs errTotalMs blockedTotalMs backendMs fwdTotalMs
        backendPrompt backendEval s now).store = s.addLog e now
      ∧ e.riskLevel = "unknown"
      ∧ e.score = -1
      ∧ e.explanation = "inspection failed: " ++ err
      ∧ e.action = "forwarded (inspection error)" := by
  refine ⟨rfl, rfl, ?_⟩
  refine ⟨{ emptyLog with
      content := truncate content 100
      riskLevel := "unknown"
      score := -1
      explanation := "inspection failed: " ++ err
      action := "forwarded (inspection error)"
      inspectorModel := cfg.inspectorModel
      backendModel := modelName
      fromTool := fromTool
      inspectTimeMs := inspectMs }, rfl, rfl, rfl, rfl, rfl⟩

/-- Claim C5: on classification success, a score at or above the
configured threshold yields the blocked action — no body is forwarded
to the backend, the stored entry's action is "blocked", and the caller
receives a synthesized envelope of the endpoint's shape
(`message.content` for chat, `response` for completion) whose text
states the score, risk level and explanation, with `done = true` and
`done_reason = "blocked"` — while a score strictly below the threshold
yields the forwarded action with the original body sent to the
backend. -/
theorem block_or_forward_by_threshold_C5 (cfg : Config)
    (path body content modelName : String) (fromTool : Bool)
    (result : InspectionResultFull)
    (inspectMs errTotalMs blockedTotalMs backendMs fwdTotalMs : Int)
    (backendPrompt backendEval : Int) (s : Store) (now : Nat) :
    (result.score ≥ cfg.threshold →
      (inspectAndForward cfg path body content modelName fromTool (.ok result)
          inspectMs errTotalMs blockedTotalMs backendMs fwdTotalMs
          backendPrompt backendEval s now).outcome
        = .blockedResp (respondBlocked path result modelName)
    ∧ (inspectAndForward cfg path body content modelName fromTool (.ok result)
          inspectMs errTotalMs blockedTotalMs backendMs fwdTotalMs
          backendPrompt backendEval s now).forwardedBody = none
    ∧ (path = "/api/chat" →
        respondBlocked path result modelName
          = .chat modelName "0001-01-01T00:00:00Z" "assistant"
              (blockedMessage result.score result.riskLevel result.explanation) true "blocked")
    ∧ (path ≠ "/api/chat" →
        respondBlocked path result modelName
          = .completion modelName "0001-01-01T00:00:00Z"
              (blockedMessage result.score result.riskLevel result.explanation) true "blocked")
    ∧ blockedMessage result.score result.riskLevel result.explanation
        = "[BLOCKED by AI Context Firewall] Risk score: " ++ toString result.score
            ++ "/100 (" ++ result.riskLevel ++ "). " ++ result.explanation
    ∧ ∃ e, (inspectAndForward cfg path body content modelName fromTool (.ok result)
          inspectMs errTotalMs blockedTotalMs backendMs fwdTotalMs
          backendPrompt backendEval s now).store = s.addLog e now ∧ e.action = "blocked")
  ∧ (result.score < cfg.threshold →
      (inspectAndForward cfg path body content modelName fromTool (.ok result)
          inspectMs errTotalMs blockedTotalMs backendMs fwdTotalMs
          backendPrompt backendEval s now).outcome = .forwardedResp
    ∧ (inspectAndForward cfg path body content modelName fromTool (.ok result)
          inspectMs errTotalMs blockedTotalMs backendMs fwdTotalMs
          backendPrompt backendEval s now).forwardedBody = some body
    ∧ ∃ e, (inspectAndForward cfg path body content modelName fromTool (.ok result)
          inspectMs errTotalMs blockedTotalMs backendMs fwdTotalMs
          backendPrompt backendEval s now).store = s.addLog e now
        ∧ e.action = "forwarded") := by
  constructor
  · intro hge
    have hact : (if result.score ≥ cfg.threshold then "blocked" else "forwarded") = "blocked" :=
      if_pos hge
    simp only [inspectAndForward, hact]
    refine ⟨?_, ?_, ?_, ?_, rfl, ?_⟩
    · simp
    · simp
    · intro hp
      simp [respondBlocked, hp]
    · intro hp
      simp [respondBlocked, hp]
    · exact ⟨_, rfl, rfl⟩
  · intro hlt
    have hact : (if result.score ≥ cfg.threshold then "blocked" else "forwarded") = "forwarded" :=
      if_neg (by omega)
    simp only [inspectAndForward, hact]
    refine ⟨?_, ?_, ?_⟩
    · simp
    · simp
    · exact ⟨_, rfl, rfl⟩

/-- Witness for C5 at concrete inputs: with the default threshold 70, a
score of 90 is blocked with the chat-shaped synthesized response and
nothing forwarded, and a score of 10 is forwarded. -/
theorem block_or_forward_by_threshold_C5_witness :
    ((90 : Int) ≥ defaultConfig.threshold)
  ∧ (inspectAndForward defaultConfig "/api/chat" "b" "c" "m" false
        (.ok { riskLevel := "malicious", score := 90, explanation := "bad"
               promptTokens := 0, evalTokens := 0 })
        1 0 2 0 0 0 0 initialStore 0).outcome
      = .blockedResp (respondBlocked "/api/chat"
          { riskLevel := "malicious", score := 90, explanation := "bad"
            promptTokens := 0, evalTokens := 0 } "m")
  ∧ (inspectAndForward defaultConfig "/api/chat" "b" "c" "m" false
        (.ok { riskLevel := "malicious", score := 90, explanation := "bad"
               promptTokens := 0, evalTokens := 0 })
        1 0 2 0 0 0 0 initialStore 0).forwardedBody = none
  ∧ ((10 : Int) < defaultConfig.threshold)
  ∧ (inspectAndForward defaultConfig "/api/chat" "b" "c" "m" false
        (.ok { riskLevel := "safe", score := 10, explanation := "ok"
               promptTokens := 0, evalTokens := 0 })
        1 0 2 0 0 0 0 initialStore 0).forwardedBody = some "b" :=
  ⟨by decide,
   ((block_or_forward_by_threshold_C5 defaultConfig "/api/chat" "b" "c" "m" false
      { riskLevel := "malicious", score := 90, explanation := "bad"
        promptTokens := 0, evalTokens := 0 }
      1 0 2 0 0 0 0 initialStore 0).1 (by decide)).1,
   ((block_or_forward_by_threshold_C5 defaultConfig "/api/chat" "b" "c" "m" false
      { riskLevel := "malicious", score := 90, explanation := "bad"
        promptTokens := 0, evalTokens := 0 }
      1 0 2 0 0 0 0 initialStore 0).1 (by decide)).2.1,
   by decide,
   ((block_or_forward_by_threshold_C5 defaultConfig "/api/chat" "b" "c" "m" false
      { riskLevel := "safe", score := 10, explanation := "ok"
        promptTokens := 0, evalTokens := 0 }
      1 0 2 0 0 0 0 initialStore 0).2 (by decide)).2.1⟩

/-- Claim C10: on the classification-failure path the entry is appended
to the store by value before the total time is computed, so the stored
entry's total and backend durations are zero for every elapsed time,
while the later assignment only reaches the local variable. -/
theorem error_path_durations_zero_C10 (cfg : Config)
    (path body content modelName : String) (fromTool : Bool) (err : String)
    (inspectMs errTotalMs blockedTotalMs backendMs fwdTotalMs : Int)
    (backendPrompt backendEval : Int) (s : Store) (now : Nat) :
    (∃ e, (inspectAndForward cfg path body content modelName fromTool (.error err)
        inspectMs errTotalMs blockedTotalMs backendMs fwdTotalMs
        backendPrompt backendEval s now).store = s.addLog e now
      ∧ e.totalTimeMs = 0 ∧ e.backendTimeMs = 0)
  ∧ (inspectAndForward cfg path body content modelName fromTool (.error err)
        inspectMs errTotalMs blockedTotalMs backendMs fwdTotalMs
        backendPrompt backendEval s now).localEntry.totalTimeMs = errTotalMs
  ∧ ∀ x ∈ (inspectAndForward cfg path body content modelName fromTool (.error err)
        inspectMs errTotalMs blockedTotalMs backendMs fwdTotalMs
        backendPrompt backendEval s now).store.logs,
      x ∈ s.logs ∨ (x.totalTimeMs = 0 ∧ x.backendTimeMs = 0) := by
  refine ⟨?_, rfl, ?_⟩
  · refine ⟨{ emptyLog with
        content := truncate content 100
        riskLevel := "unknown"
        score := -1
        explanation := "inspection failed: " ++ err
        action := "forwarded (inspection error)"
        inspectorModel := cfg.inspectorModel
        backendModel := modelName
        fromTool := fromTool
        inspectTimeMs := inspectMs }, rfl, rfl, rfl⟩
  · intro x hx
    rcases addLog_mem s _ now hx with hold | rfl
    · exact Or.inl hold
    · exact Or.inr ⟨rfl, rfl⟩

/-- Witness for C10 at concrete inputs: with 500 ms of elapsed total
time the stored entry still records zero total and backend time while
the discarded local copy records 500. -/
theorem error_path_durations_zero_C10_witness :
    (∃ e, (inspectAndForward defaultConfig "/api/chat" "b" "c" "m" false
        (.error "boom") 3 500 0 0 0 0 0 initialStore 7).store
          = initialStore.addLog e 7
      ∧ e.totalTimeMs = 0 ∧ e.backendTimeMs = 0)
  ∧ (inspectAndForward defaultConfig "/api/chat" "b" "c" "m" false
        (.error "boom") 3 500 0 0 0 0 0 initialStore 7).localEntry.totalTimeMs = 500 :=
  ⟨(error_path_durations_zero_C10 defaultConfig "/api/chat" "b" "c" "m" false
      "boom" 3 500 0 0 0 0 0 initialStore 7).1,
   (error_path_durations_zero_C10 defaultConfig "/api/chat" "b" "c" "m" false
      "boom" 3 500 0 0 0 0 0 initialStore 7).2.1⟩

/-- Claim C1: the three-tier reply parse attempts the tiers in order,
each only on failure of the previous — a successful direct decode of
the whole reply is returned as is; only when it fails is the substring
between the first opening and last closing brace decoded; only when
that also fails are the fields pattern-extracted, succeeding as soon as
a risk level is recovered — and the parse fails with a
classification-parse error carrying a bounded excerpt (a quoted run of
at most 200 characters of the raw reply) exactly when all three tiers
fail to recover a risk level. -/
theorem three_tier_parse_C1 (decode : String → Option InspectionResult)
    (findRisk : String → Option String) (findScore : String → Option Int)
    (findExpl : String → Option String) (reply : String) :
    (∀ r, decode reply = some r →
      parseThreeTier decode findRisk findScore findExpl reply = .ok r)
  ∧ (decode reply = none → ∀ r, (betweenBraces reply).bind decode = some r →
      parseThreeTier decode findRisk findScore findExpl reply = .ok r)
  ∧ (decode reply = none → (betweenBraces reply).bind decode = none →
      ∀ rl, findRisk reply = some rl →
        parseThreeTier decode findRisk findScore findExpl reply
          = .ok { riskLevel := rl, score := (findScore reply).getD 0
                  explanation := (findExpl reply).getD "" })
  ∧ ((∃ msg, parseThreeTier decode findRisk findScore findExpl reply = .error msg)
      ↔ (decode reply = none ∧ (betweenBraces reply).bind decode = none
          ∧ findRisk reply = none))
  ∧ (∀ msg, parseThreeTier decode findRisk findScore findExpl reply = .error msg →
      msg = "parse inspection result, raw excerpt: " ++ boundedExcerpt reply
    ∧ (boundedExcerpt reply).length ≤ 200
    ∧ ∃ rest, reply.data = (boundedExcerpt reply).data ++ rest) := by
  rcases h1 : decode reply with _ | r
  · rcases h2 : (betweenBraces reply).bind decode with _ | r2
    · rcases h3 : findRisk reply with _ | rl
      · simp only [parseThreeTier, h1, h2, h3]
        refine ⟨by simp, by simp, by simp, by simp, ?_⟩
        intro msg hmsg
        have hm : "parse inspection result, raw excerpt: " ++ boundedExcerpt reply = msg := by
          simpa using hmsg
        refine ⟨hm.symm, ?_, ?_⟩
        · show (String.mk (reply.data.take 200)).length ≤ 200
          simp
        · exact ⟨reply.data.drop 200, (List.take_append_drop 200 reply.data).symm⟩
      · simp only [parseThreeTier, h1, h2, h3]
        refine ⟨by simp, by simp, ?_, by simp, by simp⟩
        intro _ _ rl2 hrl2
        have : rl = rl2 := by simpa using hrl2
        subst this
        rfl
    · simp only [parseThreeTier, h1, h2]
      refine ⟨by simp, ?_, by simp, by simp, by simp⟩
      intro _ r hr
      have : r2 = r := by simpa using hr
      subst this
      rfl
  · simp only [parseThreeTier, h1]
    refine ⟨?_, by simp, by simp, by simp, by simp⟩
    intro r2 hr2
    have : r = r2 := by simpa using hr2
    subst this
    rfl

/-- A structured decoder that always fails, standing in for the decode
of an unparsable reply in concrete witnesses. -/
def decodeNone : String → Option InspectionResult := fun _ => none

/-- A field extractor that always fails, for concrete witnesses. -/
def findNoneStr : String → Option String := fun _ => none

/-- A score extractor that always fails, for concrete witnesses. -/
def findNoneInt : String → Option Int := fun _ => none

/-- Witness for C1 at a concrete reply on which every tier fails: the
parse ends in a classification-parse error. -/
theorem three_tier_parse_C1_witness :
    decodeNone "not json at all" = none
  ∧ (betweenBraces "not json at all").bind decodeNone = none
  ∧ findNoneStr "not json at all" = none
  ∧ ∃ msg, parseThreeTier decodeNone findNoneStr findNoneInt findNoneStr
      "not json at all" = .error msg :=
  ⟨rfl, by decide, rfl,
   ((three_tier_parse_C1 decodeNone findNoneStr findNoneInt findNoneStr
      "not json at all").2.2.2.1).mpr ⟨rfl, by decide, rfl⟩⟩

/-- Claim C2: after a successful parse the complete classifier client
re-derives the final risk level deterministically from the clamped
score against the two configured cutoffs, ignoring the model's own
label — so two replies with the same score get the same label whatever
the model called them, and a higher score never yields a lower-severity
label. -/
theorem derived_verdict_deterministic_monotone_C2 (maliciousAt suspiciousAt : Int)
    (raw : InspectionResult) (out : InspectionResult)
    (h : inspectComplete maliciousAt suspiciousAt (.ok raw) = .ok out) :
    out.riskLevel = deriveRiskLevel maliciousAt suspiciousAt (clampScore raw.score)
  ∧ (∀ raw2 out2, inspectComplete maliciousAt suspiciousAt (.ok raw2) = .ok out2 →
      raw2.score = raw.score → out2.riskLevel = out.riskLevel)
  ∧ (∀ raw2 out2, inspectComplete maliciousAt suspiciousAt (.ok raw2) = .ok out2 →
      raw.score ≤ raw2.score → severityRank out.riskLevel ≤ severityRank out2.riskLevel) := by
  have hout : out = { riskLevel := deriveRiskLevel maliciousAt suspiciousAt (clampScore raw.score),
                      score := clampScore raw.score, explanation := raw.explanation } := by
    simpa [inspectComplete] using h.symm
  subst hout
  refine ⟨rfl, ?_, ?_⟩
  · intro raw2 out2 h2 hsc
    have hout2 : out2 = { riskLevel := deriveRiskLevel maliciousAt suspiciousAt (clampScore raw2.score),
                          score := clampScore raw2.score, explanation := raw2.explanation } := by
      simpa [inspectComplete] using h2.symm
    subst hout2
    simp [hsc]
  · intro raw2 out2 h2 hle
    have hout2 : out2 = { riskLevel := deriveRiskLevel maliciousAt suspiciousAt (clampScore raw2.score),
                          score := clampScore raw2.score, explanation := raw2.explanation } := by
      simpa [inspectComplete] using h2.symm
    subst hout2
    show severityRank (deriveRiskLevel maliciousAt suspiciousAt (clampScore raw.score))
      ≤ severityRank (deriveRiskLevel maliciousAt suspiciousAt (clampScore raw2.score))
    have hcl : clampScore raw.score ≤ clampScore raw2.score := by
      simp only [clampScore]
      split_ifs <;> omega
    generalize clampScore raw.score = a at hcl
    generalize clampScore raw2.score = b at hcl
    simp only [deriveRiskLevel]
    split_ifs <;> simp [severityRank] <;> omega

/-- Witness for C2 at concrete inputs: with cutoffs 70/40, a reply
labelled "safe" but scored 90 comes out "malicious", and a reply scored
10 stays below a reply scored 90 in severity. -/
theorem derived_verdict_deterministic_monotone_C2_witness :
    inspectComplete 70 40 (.ok { riskLevel := "safe", score := 90, explanation := "e" })
      = .ok { riskLevel := "malicious", score := 90, explanation := "e" }
  ∧ ({ riskLevel := "malicious", score := 90, explanation := "e" } : InspectionResult).riskLevel
      = deriveRiskLevel 70 40 (clampScore 90) :=
  ⟨rfl,
   (derived_verdict_deterministic_monotone_C2 70 40
      { riskLevel := "safe", score := 90, explanation := "e" }
      { riskLevel := "malicious", score := 90, explanation := "e" } rfl).1⟩

end Firewall
